import Mathlib

/-!
# Verification of the invisibleApp audio/transcription core

Shallow embedding of the core data structures and operations of the
meeting-assistant application (`meeting_assistant.cpp`, `audio_capture.h`,
`ai_service.cpp`), together with theorems settling the specification
claims about them.

Modelling conventions:
* C++ byte buffers (`std::vector<BYTE>`) become `List Nat` (each element a
  byte value).
* C++ strings become `List Char` (for the transcript, where character-level
  trimming matters) or `String` (for queries/history, where only equality
  matters).
* IEEE-754 `float`/`double` arithmetic is modelled by exact rational
  arithmetic (`ℚ`).  All theorems proved below concern inputs (all-zero
  samples, index bounds, counts) on which the floating-point computation is
  exact, so the rational model agrees with the source.  Infinity/NaN bit
  patterns of `binary32` are modelled by extending the finite-value formula
  to exponent 255.
* Machine-integer truncating casts (`(size_t)x`, `(INT16)x` on
  non-negative/range-limited values) become `Int.floor`/truncation toward
  zero on `ℚ`.
-/

namespace InvisibleApp

/-- `AudioFormat` from `audio_capture.h`: the native format negotiated with
the platform audio engine. -/
structure AudioFormat where
  sampleRate : Nat
  bitsPerSample : Nat
  channels : Nat
  blockAlign : Nat
  avgBytesPerSec : Nat
  isFloat : Bool
deriving Repr, DecidableEq

/-- Reading byte `k` of a raw buffer (`audioData.data()[k]` in the source;
reads beyond the end — undefined behaviour in C++ — are modelled as 0;
the bounds theorems below show the source never performs them under its
precondition). -/
def byteAt (data : List Nat) (k : Nat) : Nat := data.getD k 0

/-- `*reinterpret_cast<const INT16 *>(sample)`: two little-endian bytes as a
signed 16-bit integer. -/
def int16OfBytes (lo hi : Nat) : Int :=
  let v : Nat := lo + 256 * hi
  if v < 32768 then (v : Int) else (v : Int) - 65536

/-- The 24-bit branch of the sample decoder:
`val = b0 | (b1 << 8) | (b2 << 16); if (val & 0x800000) val |= 0xFF000000`
— three little-endian bytes sign-extended to a signed 32-bit integer. -/
def int24OfBytes (b0 b1 b2 : Nat) : Int :=
  let v : Nat := b0 + 256 * b1 + 65536 * b2
  if v < 8388608 then (v : Int) else (v : Int) - 16777216

/-- `*reinterpret_cast<const float *>(sample)`: four little-endian bytes as
an IEEE-754 binary32 value, decoded exactly into `ℚ` (sign, 8-bit exponent,
23-bit mantissa; exponent 255 — infinity/NaN — is modelled by the same
formula as finite exponents). -/
def float32OfBytes (b0 b1 b2 b3 : Nat) : ℚ :=
  let bits : Nat := b0 + 256 * b1 + 65536 * b2 + 16777216 * b3
  let sign : ℚ := if bits / 2 ^ 31 % 2 = 1 then -1 else 1
  let e : Nat := bits / 2 ^ 23 % 256
  let m : Nat := bits % 2 ^ 23
  if e = 0 then sign * m / 2 ^ 149
  else sign * (2 ^ 23 + m) * 2 ^ e / 2 ^ 150

/-- `srcBytesPerSample = format.bitsPerSample / 8` (integer division). -/
def srcBytesPerSample (f : AudioFormat) : Nat := f.bitsPerSample / 8

/-- `srcFrameSize = srcBytesPerSample * format.channels`. -/
def srcFrameSize (f : AudioFormat) : Nat := srcBytesPerSample f * f.channels

/-- `numSrcFrames = audioData.size() / srcFrameSize`.  (In C++ a zero
`srcFrameSize` makes this division undefined behaviour; the model follows
the Lean convention `n / 0 = 0`.  Claim C10 is about exactly this
precondition.) -/
def numSrcFrames (data : List Nat) (f : AudioFormat) : Nat :=
  data.length / srcFrameSize f

/-- One channel sample of one frame, converted to a normalized value:
the body of the inner per-channel loop of `ResampleTo16kMono16bit`.
`off` is the byte offset `i * srcFrameSize + ch * srcBytesPerSample`.
Unsupported bit depths leave `value = 0.0f`. -/
def channelValue (f : AudioFormat) (data : List Nat) (off : Nat) : ℚ :=
  if f.bitsPerSample = 32 then
    float32OfBytes (byteAt data off) (byteAt data (off + 1))
      (byteAt data (off + 2)) (byteAt data (off + 3))
  else if f.bitsPerSample = 16 then
    (int16OfBytes (byteAt data off) (byteAt data (off + 1)) : ℚ) / 32768
  else if f.bitsPerSample = 24 then
    (int24OfBytes (byteAt data off) (byteAt data (off + 1))
      (byteAt data (off + 2)) : ℚ) / 8388608
  else 0

/-- `monoSamples[i]`: sum the channel values of frame `i` and divide by the
channel count. -/
def monoSample (f : AudioFormat) (data : List Nat) (i : Nat) : ℚ :=
  ((List.range f.channels).foldl
    (fun sum ch =>
      sum + channelValue f data (i * srcFrameSize f + ch * srcBytesPerSample f))
    0) / f.channels

/-- `numDstFrames = (size_t)(numSrcFrames * ratio)` with
`ratio = 16000.0 / format.sampleRate`: exactly `⌊n · 16000 / rate⌋`,
i.e. Nat division. -/
def numDstFrames (data : List Nat) (f : AudioFormat) : Nat :=
  numSrcFrames data f * 16000 / f.sampleRate

/-- `srcIdx = i / ratio` for destination index `i`: exactly
`i · sampleRate / 16000` as a rational. -/
def srcIdx (f : AudioFormat) (i : Nat) : ℚ := (i : ℚ) * f.sampleRate / 16000

/-- `idx0 = (size_t)srcIdx` (truncation of a non-negative value = floor). -/
def idx0 (f : AudioFormat) (i : Nat) : Nat := ⌊srcIdx f i⌋.toNat

/-- `idx1 = idx0 + 1; if (idx1 >= numSrcFrames) idx1 = numSrcFrames - 1`. -/
def idx1 (f : AudioFormat) (n i : Nat) : Nat :=
  if n ≤ idx0 f i + 1 then n - 1 else idx0 f i + 1

/-- Truncation toward zero of a rational, as the C cast `(INT16)` behaves on
the clamped value. -/
def truncRat (q : ℚ) : Int := if 0 ≤ q then ⌊q⌋ else -⌊-q⌋

/-- `resampled[i]`: linear interpolation between `monoSamples[idx0]` and
`monoSamples[idx1]`, clamped to `[-1, 1]` and scaled to a 16-bit integer.
`n` is `numSrcFrames`. -/
def dstSample (f : AudioFormat) (data : List Nat) (n i : Nat) : Int :=
  let frac : ℚ := srcIdx f i - (idx0 f i : ℚ)
  let value : ℚ :=
    monoSample f data (idx0 f i) * (1 - frac) + monoSample f data (idx1 f n i) * frac
  let clamped : ℚ := if 1 < value then 1 else if value < -1 then -1 else value
  truncRat (clamped * 32767)

/-- Step 3 of the resampler: an `INT16` laid out as two little-endian
bytes (`memcpy` into the byte vector). -/
def int16ToBytes (v : Int) : List Nat :=
  [(v % 65536 % 256).toNat, (v % 65536 / 256).toNat]

/-- `ResampleTo16kMono16bit` from `meeting_assistant.cpp`: raw PCM plus its
source format to 16 kHz mono 16-bit PCM bytes. -/
def ResampleTo16kMono16bit (data : List Nat) (f : AudioFormat) : List Nat :=
  if numSrcFrames data f = 0 then []
  else
    (List.range (numDstFrames data f)).flatMap
      (fun i => int16ToBytes (dstSample f data (numSrcFrames data f) i))

/-!
## Transcript accumulator (`MeetingAssistant::AppendTranscript`)
-/

/-- The concatenation step of `AppendTranscript` before any trimming:
empty `text` leaves the transcript untouched; otherwise a single space is
inserted between a non-empty transcript and the new text. -/
def joined (transcript text : List Char) : List Char :=
  if text = [] then transcript
  else if transcript = [] then text
  else transcript ++ ' ' :: text

/-- The trim-to-max step of `AppendTranscript`: when the text exceeds
`maxLen`, keep the last `maxLen` characters
(`transcript_.substr(transcript_.length() - maxTranscriptLength)`), then
drop through the first space if there is one
(`find(' ')` and `substr(firstSpace + 1)`). -/
def trimTranscript (maxLen : Nat) (t1 : List Char) : List Char :=
  if maxLen < t1.length then
    match (t1.drop (t1.length - maxLen)).findIdx? (· = ' ') with
    | some p => (t1.drop (t1.length - maxLen)).drop (p + 1)
    | none => t1.drop (t1.length - maxLen)
  else t1

/-- `MeetingAssistant::AppendTranscript`: append `text` (space-separated),
then trim to the maximum length.  (`config_.maxTranscriptLength` is a
non-negative `int` in the source, modelled as `Nat`.) -/
def appendTranscript (maxLen : Nat) (transcript text : List Char) : List Char :=
  if text = [] then transcript
  else trimTranscript maxLen (joined transcript text)

/-- The word-boundary property the specification asserts of a trimmed
transcript `res` obtained from the pre-trim text `t1`: either `res` is all
of `t1`, or `res` is the suffix of `t1` that starts right after a space. -/
def boundarySuffix (t1 res : List Char) : Prop :=
  res = t1 ∨
    ∃ k, 0 < k ∧ k + res.length = t1.length ∧ t1.getD (k - 1) ' ' = ' ' ∧
      res = t1.drop k

instance (t1 res : List Char) : Decidable (boundarySuffix t1 res) :=
  decidable_of_iff
    (res = t1 ∨
      ∃ k : Fin (t1.length + 1), 0 < k.1 ∧ k.1 + res.length = t1.length ∧
        t1.getD (k.1 - 1) ' ' = ' ' ∧ res = t1.drop k.1)
    (by
      constructor
      · rintro (h | ⟨k, hk, hlen, hsp, hres⟩)
        · exact Or.inl h
        · exact Or.inr ⟨k.1, hk, hlen, hsp, hres⟩
      · rintro (h | ⟨k, hk, hlen, hsp, hres⟩)
        · exact Or.inl h
        · exact Or.inr ⟨⟨k, by omega⟩, hk, hlen, hsp, hres⟩)

/-!
## Conversation history (`MeetingAssistant::AIWorker`, QUESTION branch)
-/

/-- Modelled from the spec: the constant `MAX_CONVERSATION_HISTORY` is used
by `meeting_assistant.cpp` but its declaration is not among the provided
sources; the spec fixes the conversation-history cap at 10. -/
def MAX_CONVERSATION_HISTORY : Nat := 10

/-- The trim loop
`while ((int)conversationHistory_.size() > MAX_CONVERSATION_HISTORY)
  conversationHistory_.erase(conversationHistory_.begin());`
(each iteration erases the front element; the loop runs while the size
exceeds the cap, so it never fires on an empty list). -/
def trimHistory : List (String × String) → List (String × String)
  | [] => []
  | x :: t =>
      if MAX_CONVERSATION_HISTORY < (x :: t).length then trimHistory t
      else x :: t

/-- The history update of the QUESTION branch of `AIWorker`: on a non-empty
response, push the exchange and trim; otherwise leave the history alone. -/
def recordExchange (h : List (String × String)) (e : String × String) :
    List (String × String) :=
  if e.2 = "" then h else trimHistory (h ++ [e])

/-!
## AI query worker (`MeetingAssistant::AIWorker` body, `ai_service.cpp`)
-/

/-- `AIQuery::Type` from `meeting_assistant.h`. -/
inductive QueryType
  | QUESTION
  | SUMMARY
  | ACTION_ITEMS
deriving Repr, DecidableEq

/-- `MeetingAssistantEvent::Type` from `meeting_assistant.h`. -/
inductive EventType
  | TRANSCRIPT_UPDATE
  | AI_RESPONSE
  | SUMMARY_READY
  | ACTION_ITEMS_READY
  | EVENT_ERROR
deriving Repr, DecidableEq

/-- `MeetingAssistantEvent` from `meeting_assistant.h`. -/
structure Event where
  type : EventType
  text : String
  error : String
deriving Repr, DecidableEq

/-- `ChatMessage` role/content pairs passed to the remote chat boundary. -/
structure ChatMessage where
  role : String
  content : String
deriving Repr, DecidableEq

/-- The system prompt of the QUESTION branch of `AIWorker`. -/
def questionSystemPrompt : String :=
  "You are an expert interview and meeting assistant. " ++
  "Provide DIRECT ANSWERS to questions. Do NOT summarize unless asked. " ++
  "If there's a coding question, provide the solution. " ++
  "Be concise and accurate."

/-- The message list the QUESTION branch builds: system prompt, transcript
context when non-empty, the replayed conversation history as alternating
user/assistant turns, then the question. -/
def buildQuestionMessages (transcript : String) (hist : List (String × String))
    (question : String) : List ChatMessage :=
  [⟨"system", questionSystemPrompt⟩] ++
    (if transcript = "" then [] else
      [⟨"system", "Current meeting/interview transcript:\n" ++ transcript⟩]) ++
    hist.flatMap (fun e => [⟨"user", e.1⟩, ⟨"assistant", e.2⟩]) ++
    [⟨"user", question⟩]

/-- `OpenAIService::Query(userMessage, context)` from `ai_service.cpp`:
system prompt, optional meeting context, then the user message. -/
def buildQueryMessages (systemPrompt userMessage context : String) :
    List ChatMessage :=
  [⟨"system", systemPrompt⟩] ++
    (if context = "" then [] else [⟨"system", "Meeting context: " ++ context⟩]) ++
    [⟨"user", userMessage⟩]

/-- `OpenAIService::Summarize(transcript)` calls `Query` with a fixed
summarization instruction and an empty context. -/
def summarizeMessages (systemPrompt transcript : String) : List ChatMessage :=
  buildQueryMessages systemPrompt
    ("Please provide a concise summary of this meeting transcript. " ++
     "Include key discussion points and any decisions made. " ++
     "Format as bullet points.\n\nTranscript:\n" ++ transcript) ""

/-- `OpenAIService::ExtractActionItems(transcript)` calls `Query` with a
fixed action-item instruction and an empty context. -/
def actionItemsMessages (systemPrompt transcript : String) : List ChatMessage :=
  buildQueryMessages systemPrompt
    ("Extract all action items from this meeting transcript. " ++
     "For each action item, identify who is responsible if mentioned. " ++
     "Format as a numbered list.\n\nTranscript:\n" ++ transcript) ""

/-- Result of processing one query in the `AIWorker` loop. -/
structure QueryOutcome where
  messages : List ChatMessage
  events : List Event
  history : List (String × String)
deriving Repr, DecidableEq

/-- The event type the `switch` of `AIWorker` assigns for each query type
(emitted when the response is non-empty). -/
def successEvent : QueryType → EventType
  | .QUESTION => .AI_RESPONSE
  | .SUMMARY => .SUMMARY_READY
  | .ACTION_ITEMS => .ACTION_ITEMS_READY

/-- One iteration of the `AIWorker` loop body for a popped `query`, with the
remote chat boundary abstracted: `response` is the text it returns
(empty = failure) and `lastError` its retrievable last-error string.
`systemPrompt` is the `AIServiceConfig` system prompt used by
`OpenAIService::Query`. -/
def processQuery (qt : QueryType) (question : String)
    (hist : List (String × String)) (transcript : String)
    (systemPrompt response lastError : String) : QueryOutcome :=
  let messages :=
    match qt with
    | .QUESTION => buildQuestionMessages transcript hist question
    | .SUMMARY => summarizeMessages systemPrompt transcript
    | .ACTION_ITEMS => actionItemsMessages systemPrompt transcript
  let history :=
    match qt with
    | .QUESTION =>
        if response = "" then hist else recordExchange hist (question, response)
    | _ => hist
  let events :=
    if response = "" then
      [⟨EventType.EVENT_ERROR, "", "Failed to get AI response: " ++ lastError⟩]
    else [⟨successEvent qt, response, ""⟩]
  ⟨messages, events, history⟩

/-!
## Transcription worker cycle (`MeetingAssistant::TranscriptionWorker`)
-/

/-- `minBytes = (size_t)(bytesPerSecond * config_.minAudioLengthSec)`.
`minAudioLengthSec` is a non-negative float configuration value (its
declaration is not among the provided sources; the spec names it the
"minimum audio length gate"), modelled as a rational.  The cast truncates
the non-negative product, i.e. takes its floor. -/
def minBytes (f : AudioFormat) (minAudioLengthSec : ℚ) : Nat :=
  ⌊(f.avgBytesPerSec : ℚ) * minAudioLengthSec⌋.toNat

/-- One cycle of `TranscriptionWorker` after waking, acting on the shared
audio buffer.  `buffer` is the shared buffer content at drain time and
`appendedDuring` the bytes `OnAudioData` appends between the drain and the
end of the cycle (they sit in the shared buffer when the cycle acts on it
again).  Returns the shared buffer after the cycle and the resampled bytes
passed to `aiService_.Transcribe`, if that call is made. -/
def transcriptionCycle (buffer : List Nat) (f : AudioFormat)
    (minAudioLengthSec : ℚ) (appendedDuring : List Nat) :
    List Nat × Option (List Nat) :=
  if buffer = [] then (appendedDuring, none)
  else if 0 < f.avgBytesPerSec ∧ buffer.length < minBytes f minAudioLengthSec then
    (buffer ++ appendedDuring, none)
  else
    let resampled := ResampleTo16kMono16bit buffer f
    if resampled = [] then (appendedDuring, none)
    else (appendedDuring, some resampled)

/-!
## Shared audio buffer as a transition system (claim C1)

`OnAudioData` appends under `audioMutex_`; `TranscriptionWorker` drains the
whole buffer (move out and clear) and either keeps the drained bytes
(passing them on to resampling) or puts them back at the front.  The ghost
components `kept` and `appended` log, in order, the bytes ever drained and
kept and the bytes ever appended.
-/

/-- State of the shared audio buffer together with the worker's in-flight
drained chunk (`audioData` local) and ghost logs. -/
structure BufState where
  buffer : List Nat
  held : List Nat
  kept : List Nat
  appended : List Nat
deriving Repr, DecidableEq

/-- The interleaved steps acting on the shared audio buffer:
`append` (`OnAudioData`), `drain` (move out and clear the whole buffer;
fires only when the worker holds nothing, as each cycle drains once),
`keep` (the worker passes the drained bytes on), and `putBack` (the worker
prepends the drained bytes, `audioBuffer_.insert(begin, ...)`). -/
inductive BufStep : BufState → BufState → Prop
  | append (s : BufState) (chunk : List Nat) :
      BufStep s ⟨s.buffer ++ chunk, s.held, s.kept, s.appended ++ chunk⟩
  | drain (s : BufState) (h : s.held = []) :
      BufStep s ⟨[], s.buffer, s.kept, s.appended⟩
  | keep (s : BufState) :
      BufStep s ⟨s.buffer, [], s.kept ++ s.held, s.appended⟩
  | putBack (s : BufState) :
      BufStep s ⟨s.held ++ s.buffer, [], s.kept, s.appended⟩

/-- The initial state: everything empty. -/
def initBufState : BufState := ⟨[], [], [], []⟩

/-- Reachability of a buffer state by interleaved append/drain/keep/put-back
steps from the initial state. -/
def BufReachable (s : BufState) : Prop :=
  Relation.ReflTransGen BufStep initBufState s

/-!
## Audio capture start (`AudioCapture::Start`)
-/

/-- The fields of `AudioCapture` that `Start` touches (COM handles and the
negotiated format are set by `Initialize` and read-only during `Start`).
`handler` models the raw `IAudioCaptureHandler*` (`none` = null);
`threadRunning` models whether `captureThread_` holds a running thread. -/
structure AudioCaptureState where
  initialized : Bool
  capturing : Bool
  shouldStop : Bool
  handler : Option Nat
  threadRunning : Bool
deriving Repr, DecidableEq

/-- `AudioCapture::Start(handler)`: fail when uninitialized; no-op success
when already capturing; otherwise store the handler, clear the stop flag,
start the platform stream (`platformStartOk` models the
`audioClient_->Start()` HRESULT), and only on success spawn the capture
thread and mark capturing. -/
def AudioCaptureStart (s : AudioCaptureState) (handler : Option Nat)
    (platformStartOk : Bool) : Bool × AudioCaptureState :=
  if !s.initialized then (false, s)
  else if s.capturing then (true, s)
  else
    let s1 := { s with handler := handler, shouldStop := false }
    if !platformStartOk then (false, s1)
    else (true, { s1 with threadRunning := true, capturing := true })

/-!
## Theorems
-/

/-- C1: For every interleaved sequence of append steps, drain steps and
put-back steps on the shared audio buffer, no byte is lost or duplicated:
at every reachable state the log of bytes ever appended is exactly the bytes
drained and kept, followed by the worker's in-flight drained bytes, followed
by the bytes remaining in the buffer — so the total appended equals the
total drained-and-kept plus the remainder, and the content of the buffer at
every drain (`held` right after a drain) is one contiguous,
capture-ordered slice of the append log. -/
theorem C1_buffer_conservation (s : BufState) (h : BufReachable s) :
    s.appended = s.kept ++ (s.held ++ s.buffer) ∧
      s.appended.length = s.kept.length + s.held.length + s.buffer.length := by
  have main : s.appended = s.kept ++ (s.held ++ s.buffer) := by
    induction h with
    | refl => rfl
    | tail _ step ih =>
      cases step with
      | append c => simp only [ih, List.append_assoc]
      | drain hh => simp [ih, hh]
      | keep => simp [ih]
      | putBack => simp [ih]
  refine ⟨main, ?_⟩
  simp [main, Nat.add_assoc]

/-- Witness for C1: a concrete interleaving — append `[1, 2]`, drain it,
keep it, then append `[3]` — reaches a state where the conservation
equation holds. -/
theorem C1_buffer_conservation_witness :
    BufReachable ⟨[3], [], [1, 2], [1, 2, 3]⟩ ∧
      ([1, 2, 3] : List Nat) = [1, 2] ++ ([] ++ [3]) := by
  have h1 : BufStep initBufState ⟨[1, 2], [], [], [1, 2]⟩ :=
    BufStep.append initBufState [1, 2]
  have h2 : BufStep (⟨[1, 2], [], [], [1, 2]⟩ : BufState)
      ⟨[], [1, 2], [], [1, 2]⟩ := BufStep.drain _ rfl
  have h3 : BufStep (⟨[], [1, 2], [], [1, 2]⟩ : BufState)
      ⟨[], [], [1, 2], [1, 2]⟩ := BufStep.keep _
  have h4 : BufStep (⟨[], [], [1, 2], [1, 2]⟩ : BufState)
      ⟨[3], [], [1, 2], [1, 2, 3]⟩ := BufStep.append _ [3]
  have hreach : BufReachable ⟨[3], [], [1, 2], [1, 2, 3]⟩ :=
    Relation.ReflTransGen.head h1 (Relation.ReflTransGen.head h2
      (Relation.ReflTransGen.head h3 (Relation.ReflTransGen.single h4)))
  exact ⟨hreach, (C1_buffer_conservation _ hreach).1⟩

/-- C3: in a transcription-worker cycle where the drained audio is smaller
than `minBytes` (with a positive byte rate), no transcription call is made
and the drained bytes are put back at the front of the shared buffer,
ahead of any bytes appended in the meantime. -/
theorem C3_short_chunk_putback (buffer : List Nat) (f : AudioFormat)
    (minLen : ℚ) (appendedDuring : List Nat)
    (h1 : 0 < f.avgBytesPerSec)
    (h2 : buffer.length < minBytes f minLen) :
    transcriptionCycle buffer f minLen appendedDuring =
      (buffer ++ appendedDuring, none) := by
  unfold transcriptionCycle
  by_cases hb : buffer = []
  · subst hb; simp
  · simp [hb, h1, h2]

/-- Witness for C3: a two-byte drain against a 32000-byte threshold
(32000 B/s at a one-second gate) is put back in front of the bytes
appended during the cycle. -/
theorem C3_short_chunk_putback_witness :
    0 < (32000 : Nat) ∧
      ([1, 2] : List Nat).length <
        minBytes ⟨48000, 32, 2, 8, 32000, true⟩ 1 ∧
      transcriptionCycle [1, 2] ⟨48000, 32, 2, 8, 32000, true⟩ 1 [9] =
        ([1, 2, 9], none) := by
  refine ⟨by decide, by simp [minBytes], ?_⟩
  exact C3_short_chunk_putback [1, 2] ⟨48000, 32, 2, 8, 32000, true⟩ 1 [9]
    (by decide) (by simp [minBytes])

/-- Helper: every raw-buffer read of an all-zero buffer yields 0 (also for
out-of-range offsets, where the model's default is 0). -/
theorem byteAt_zero (data : List Nat) (hz : ∀ b ∈ data, b = 0) (k : Nat) :
    byteAt data k = 0 := by
  unfold byteAt
  rw [List.getD_eq_getElem?_getD]
  cases hk : data[k]? with
  | none => rfl
  | some v =>
    obtain ⟨hlt, he⟩ := List.getElem?_eq_some.mp hk
    simp [hz v (he ▸ List.getElem_mem hlt)]

/-- Helper: every decoded channel sample of an all-zero buffer is 0, in
every bit-depth branch (including the unsupported-depth default). -/
theorem channelValue_zero (f : AudioFormat) (data : List Nat)
    (hz : ∀ b ∈ data, b = 0) (off : Nat) : channelValue f data off = 0 := by
  unfold channelValue
  simp only [byteAt_zero data hz]
  split
  · norm_num [float32OfBytes]
  · split
    · norm_num [int16OfBytes]
    · split
      · norm_num [int24OfBytes]
      · rfl

/-- Helper: every mixed-down mono sample of an all-zero buffer is 0. -/
theorem monoSample_zero (f : AudioFormat) (data : List Nat)
    (hz : ∀ b ∈ data, b = 0) (i : Nat) : monoSample f data i = 0 := by
  unfold monoSample
  have hfold : ∀ (l : List Nat) (init : ℚ),
      l.foldl (fun sum ch => sum + channelValue f data
        (i * srcFrameSize f + ch * srcBytesPerSample f)) init = init := by
    intro l
    induction l with
    | nil => intro init; rfl
    | cons a t ih =>
      intro init
      rw [List.foldl_cons, channelValue_zero f data hz, add_zero, ih]
  rw [hfold, zero_div]

/-- Helper: every interpolated, clamped, scaled output sample of an
all-zero buffer is 0. -/
theorem dstSample_zero (f : AudioFormat) (data : List Nat)
    (hz : ∀ b ∈ data, b = 0) (n i : Nat) : dstSample f data n i = 0 := by
  unfold dstSample
  rw [monoSample_zero f data hz, monoSample_zero f data hz]
  norm_num [truncRat]

/-- Helper: emitting the two-byte pair `[0, 0]` once per destination frame
yields an all-zero byte list twice as long as the frame list. -/
theorem flatMap_pair_zero :
    ∀ l : List Nat, (l.flatMap fun _ => ([0, 0] : List Nat)) =
      List.replicate (2 * l.length) 0 := by
  intro l
  induction l with
  | nil => rfl
  | cons a t ih =>
    rw [List.flatMap_cons, ih, List.length_cons,
      show 2 * (t.length + 1) = 2 * t.length + 1 + 1 by omega,
      List.replicate_succ, List.replicate_succ]
    rfl

/-- C2: for every source format with at least one channel, a supported bit
depth (16, 24 or 32) and a positive sample rate, resampling an all-zero PCM
input returns all-zero 16-bit mono bytes for exactly
`⌊sourceFrames · 16000 / sourceRate⌋` samples (two bytes per sample); in
particular zero source frames give the empty result rather than an error.
(The exact rational model makes the count exact, which is within the
claim's ±1 interpolation-boundary tolerance.) -/
theorem C2_resample_all_zero (data : List Nat) (f : AudioFormat)
    (hch : 1 ≤ f.channels)
    (hbits : f.bitsPerSample = 16 ∨ f.bitsPerSample = 24 ∨ f.bitsPerSample = 32)
    (hrate : 0 < f.sampleRate)
    (hz : ∀ b ∈ data, b = 0) :
    ResampleTo16kMono16bit data f =
      List.replicate (2 * (numSrcFrames data f * 16000 / f.sampleRate)) 0 := by
  unfold ResampleTo16kMono16bit
  by_cases hn : numSrcFrames data f = 0
  · rw [if_pos hn, hn]
    simp
  · rw [if_neg hn]
    have hfun : ∀ i, int16ToBytes (dstSample f data (numSrcFrames data f) i) =
        [0, 0] := by
      intro i
      rw [dstSample_zero f data hz]
      rfl
    simp only [hfun]
    rw [flatMap_pair_zero, List.length_range]
    rfl

/-- Witness for C2: 8 zero bytes of 16-bit stereo PCM at 32000 Hz (2 source
frames) resample to 2 zero bytes (1 destination sample). -/
theorem C2_resample_all_zero_witness :
    1 ≤ (2 : Nat) ∧
      ((16 : Nat) = 16 ∨ (16 : Nat) = 24 ∨ (16 : Nat) = 32) ∧
      0 < (32000 : Nat) ∧
      (∀ b ∈ List.replicate 8 0, b = 0) ∧
      ResampleTo16kMono16bit (List.replicate 8 0)
          ⟨32000, 16, 2, 4, 128000, false⟩ =
        List.replicate
          (2 * (numSrcFrames (List.replicate 8 0)
              ⟨32000, 16, 2, 4, 128000, false⟩ * 16000 / 32000)) 0 := by
  refine ⟨by decide, by decide, by decide, by decide, ?_⟩
  exact C2_resample_all_zero (List.replicate 8 0) ⟨32000, 16, 2, 4, 128000, false⟩
    (by decide) (by decide) (by decide) (by decide)

/-- C10: the resampler is total exactly under the precondition
`channels ≥ 1 ∧ bitsPerSample ≥ 8`: under it the frame-size divisor and the
channel-count divisor are nonzero and both interpolation indices `idx0` and
the clamped `idx1` are in bounds for every destination index; and for
`channels = 0` or `bitsPerSample < 8` — against which the function has no
guard — the frame-size divisor is zero. -/
theorem C10_resampler_preconditions :
    (∀ f : AudioFormat, 1 ≤ f.channels → 8 ≤ f.bitsPerSample →
      srcFrameSize f ≠ 0 ∧ f.channels ≠ 0 ∧
      ∀ (data : List Nat) (i : Nat), i < numDstFrames data f →
        idx0 f i < numSrcFrames data f ∧
        idx1 f (numSrcFrames data f) i < numSrcFrames data f) ∧
    (∀ f : AudioFormat, f.channels = 0 ∨ f.bitsPerSample < 8 →
      srcFrameSize f = 0) := by
  constructor
  · intro f hch hbits
    have hbps : 1 ≤ srcBytesPerSample f := by
      unfold srcBytesPerSample
      rw [Nat.le_div_iff_mul_le (by norm_num)]
      omega
    have hfs : srcFrameSize f ≠ 0 := by
      unfold srcFrameSize
      have := Nat.mul_pos (show 0 < srcBytesPerSample f by omega)
        (show 0 < f.channels by omega)
      omega
    refine ⟨hfs, by omega, ?_⟩
    intro data i hi
    unfold numDstFrames at hi
    have hrate : 0 < f.sampleRate := by
      by_contra h
      rw [show f.sampleRate = 0 by omega, Nat.div_zero] at hi
      omega
    have hn : 0 < numSrcFrames data f := by
      by_contra h
      rw [show numSrcFrames data f = 0 by omega] at hi
      simp at hi
    have hmul : (i + 1) * f.sampleRate ≤ numSrcFrames data f * 16000 := by
      rw [← Nat.le_div_iff_mul_le hrate]
      exact hi
    have hidx0 : idx0 f i = i * f.sampleRate / 16000 := by
      unfold idx0 srcIdx
      rw [Int.floor_toNat,
        show ((i : ℚ) * f.sampleRate / 16000) =
          ((i * f.sampleRate : ℕ) : ℚ) / ((16000 : ℕ) : ℚ) by push_cast; ring,
        Nat.floor_div_nat, Nat.floor_natCast]
    have h0 : idx0 f i < numSrcFrames data f := by
      rw [hidx0, Nat.div_lt_iff_lt_mul (by norm_num : (0 : Nat) < 16000)]
      calc i * f.sampleRate < (i + 1) * f.sampleRate :=
            mul_lt_mul_of_pos_right (Nat.lt_succ_self i) hrate
        _ ≤ numSrcFrames data f * 16000 := hmul
    refine ⟨h0, ?_⟩
    unfold idx1
    split
    · omega
    · next h => omega
  · intro f h
    unfold srcFrameSize srcBytesPerSample
    rcases h with h | h
    · rw [h, Nat.mul_zero]
    · rw [Nat.div_eq_of_lt h, Nat.zero_mul]

/-- Witness for C10: for 16-bit stereo at 32000 Hz with 8 zero bytes the
first destination index has both interpolation indices in bounds, and a
zero-channel format has a zero frame-size divisor. -/
theorem C10_resampler_preconditions_witness :
    1 ≤ (2 : Nat) ∧ 8 ≤ (16 : Nat) ∧
      (0 : Nat) < numDstFrames (List.replicate 8 0) ⟨32000, 16, 2, 4, 128000, false⟩ ∧
      idx0 ⟨32000, 16, 2, 4, 128000, false⟩ 0 <
        numSrcFrames (List.replicate 8 0) ⟨32000, 16, 2, 4, 128000, false⟩ ∧
      srcFrameSize ⟨48000, 16, 0, 0, 0, false⟩ = 0 := by
  refine ⟨by decide, by decide, by decide, ?_, ?_⟩
  · exact ((C10_resampler_preconditions.1 _ (by decide) (by decide)).2.2
      (List.replicate 8 0) 0 (by decide)).1
  · exact C10_resampler_preconditions.2 _ (Or.inl rfl)

/-- Helper: the trim step never returns more than `maxLen` characters. -/
theorem trimTranscript_length_le (maxLen : Nat) (t1 : List Char) :
    (trimTranscript maxLen t1).length ≤ maxLen := by
  unfold trimTranscript
  split
  · next h =>
    split
    · next p _ => simp only [List.length_drop]; omega
    · next => simp only [List.length_drop]; omega
  · next h => omega

/-- Helper: one `AppendTranscript` call with non-empty text yields a
transcript of length at most `maxLen`, whatever the previous content. -/
theorem appendTranscript_length_le (maxLen : Nat) (s t : List Char)
    (ht : t ≠ []) : (appendTranscript maxLen s t).length ≤ maxLen := by
  unfold appendTranscript
  rw [if_neg ht]
  exact trimTranscript_length_le maxLen (joined s t)

/-- Helper: every intermediate transcript along a run of appends stays
within the bound, provided the starting transcript does. -/
theorem scanl_appendTranscript_le (maxLen : Nat) :
    ∀ (texts : List (List Char)) (b : List Char), b.length ≤ maxLen →
      (∀ t ∈ texts, t ≠ []) →
      ∀ s ∈ List.scanl (appendTranscript maxLen) b texts, s.length ≤ maxLen := by
  intro texts
  induction texts with
  | nil =>
    intro b hb _ s hs
    rw [List.scanl_nil, List.mem_singleton] at hs
    exact hs ▸ hb
  | cons x xs ih =>
    intro b hb hne s hs
    rw [List.scanl_cons, List.singleton_append, List.mem_cons] at hs
    rcases hs with rfl | hs
    · exact hb
    · exact ih (appendTranscript maxLen b x)
        (appendTranscript_length_le maxLen b x (hne x (List.mem_cons_self x xs)))
        (fun t htm => hne t (List.mem_cons_of_mem x htm)) s hs

/-- C4: for every sequence of `AppendTranscript` calls with non-empty
texts, the transcript after each call (every state along the scan, starting
from the empty transcript) has length at most the configured
`maxTranscriptLength`. -/
theorem C4_transcript_length_bounded (maxLen : Nat) (texts : List (List Char))
    (h : ∀ t ∈ texts, t ≠ []) :
    ∀ s ∈ List.scanl (appendTranscript maxLen) [] texts,
      s.length ≤ maxLen :=
  scanl_appendTranscript_le maxLen texts [] (by simp) h

/-- Witness for C4: two concrete appends against a 5-character maximum stay
within the bound at every step. -/
theorem C4_transcript_length_bounded_witness :
    (∀ t ∈ [['a', 'b', 'c'], ['d', 'e', 'f', 'g']], t ≠ []) ∧
      ∀ s ∈ List.scanl (appendTranscript 5) []
        [['a', 'b', 'c'], ['d', 'e', 'f', 'g']], s.length ≤ 5 :=
  ⟨by decide, C4_transcript_length_bounded 5 _ (by decide)⟩

/-- C5 as stated is false: a single 8-character word appended to an empty
transcript under a 4-character maximum triggers trimming, and the trimmed
window contains no space, so the result `"efgh"` starts mid-word — it is
neither the whole pre-trim text nor a suffix preceded by a space. -/
theorem C5_counterexample :
    4 < (joined [] ['a', 'b', 'c', 'd', 'e', 'f', 'g', 'h']).length ∧
      ¬ boundarySuffix (joined [] ['a', 'b', 'c', 'd', 'e', 'f', 'g', 'h'])
        (appendTranscript 4 [] ['a', 'b', 'c', 'd', 'e', 'f', 'g', 'h']) := by
  decide

/-- Helper: `findIdx?` on a list containing a space returns the index of a
space inside the list. -/
theorem findIdx?_space_spec :
    ∀ l : List Char, ' ' ∈ l →
      ∃ j, l.findIdx? (· = ' ') = some j ∧ j < l.length ∧ l[j]? = some ' ' := by
  intro l
  induction l with
  | nil => intro hmem; cases hmem
  | cons x xs ih =>
    intro hmem
    by_cases hx : x = ' '
    · exact ⟨0, by simp [List.findIdx?_cons, hx], by simp, by simp [hx]⟩
    · have hxs : ' ' ∈ xs := by
        rcases List.mem_cons.mp hmem with h | h
        · exact absurd h.symm hx
        · exact h
      obtain ⟨j, hj, hlt, hget⟩ := ih hxs
      refine ⟨j + 1, ?_, by simp; omega, by simp [hget]⟩
      rw [List.findIdx?_cons, if_neg (by simp [hx]), List.findIdx?_succ, hj]
      rfl

/-- C5 amended: when trimming triggers and the trimmed-to-maximum window
contains a space, the resulting transcript starts right after a space of the
pre-trim text (the space itself is stripped); when the window contains no
space the code keeps the whole window, which can start mid-word (see the
counterexample). -/
theorem C5_trim_word_boundary (maxLen : Nat) (s t : List Char) (ht : t ≠ [])
    (htrim : maxLen < (joined s t).length)
    (hsp : ' ' ∈ (joined s t).drop ((joined s t).length - maxLen)) :
    boundarySuffix (joined s t) (appendTranscript maxLen s t) := by
  obtain ⟨j, hj, hlt, hget⟩ := findIdx?_space_spec _ hsp
  have hres : appendTranscript maxLen s t =
      ((joined s t).drop ((joined s t).length - maxLen)).drop (j + 1) := by
    unfold appendTranscript trimTranscript
    rw [if_neg ht, if_pos htrim, hj]
  rw [List.length_drop] at hlt
  refine Or.inr ⟨(joined s t).length - maxLen + (j + 1), by omega, ?_, ?_, ?_⟩
  · rw [hres, List.drop_drop, List.length_drop]
    omega
  · have : (joined s t).length - maxLen + (j + 1) - 1 =
        (joined s t).length - maxLen + j := by omega
    rw [this, List.getD_eq_getElem?_getD, ← List.getElem?_drop, hget]
    rfl
  · rw [hres, List.drop_drop]

/-- Witness for C5 amended: trimming `"ab cd ef"` to 5 characters leaves
the window `"cd ef"`, whose first space is stripped, giving `"ef"` — a
suffix of the pre-trim text preceded by a space. -/
theorem C5_trim_word_boundary_witness :
    (['e', 'f'] : List Char) ≠ [] ∧
      5 < (joined ['a', 'b', ' ', 'c', 'd'] ['e', 'f']).length ∧
      ' ' ∈ (joined ['a', 'b', ' ', 'c', 'd'] ['e', 'f']).drop
        ((joined ['a', 'b', ' ', 'c', 'd'] ['e', 'f']).length - 5) ∧
      boundarySuffix (joined ['a', 'b', ' ', 'c', 'd'] ['e', 'f'])
        (appendTranscript 5 ['a', 'b', ' ', 'c', 'd'] ['e', 'f']) :=
  ⟨by decide, by decide, by decide,
    C5_trim_word_boundary 5 ['a', 'b', ' ', 'c', 'd'] ['e', 'f']
      (by decide) (by decide) (by decide)⟩

/-- Helper: the history trim loop keeps exactly the most recent
`MAX_CONVERSATION_HISTORY` entries. -/
theorem trimHistory_eq_drop (h : List (String × String)) :
    trimHistory h = h.drop (h.length - MAX_CONVERSATION_HISTORY) := by
  induction h with
  | nil => rfl
  | cons x t ih =>
    simp only [trimHistory]
    by_cases hlen : MAX_CONVERSATION_HISTORY < (x :: t).length
    · rw [if_pos hlen, ih]
      have h10 : MAX_CONVERSATION_HISTORY ≤ t.length := by
        simp only [List.length_cons] at hlen; omega
      have : (x :: t).length - MAX_CONVERSATION_HISTORY =
          (t.length - MAX_CONVERSATION_HISTORY) + 1 := by
        simp only [List.length_cons]; omega
      rw [this, List.drop_succ_cons]
    · rw [if_neg hlen]
      have : (x :: t).length - MAX_CONVERSATION_HISTORY = 0 := by
        simp only [List.length_cons] at hlen ⊢; omega
      rw [this, List.drop_zero]

/-- Helper: recording a non-empty exchange appends it and keeps the most
recent `MAX_CONVERSATION_HISTORY` entries. -/
theorem recordExchange_eq (h : List (String × String)) (e : String × String)
    (he : e.2 ≠ "") :
    recordExchange h e =
      (h ++ [e]).drop ((h ++ [e]).length - MAX_CONVERSATION_HISTORY) := by
  unfold recordExchange
  rw [if_neg he, trimHistory_eq_drop]

/-- Helper: folding `recordExchange` over non-empty exchanges from a history
within the cap yields the most recent `MAX_CONVERSATION_HISTORY` entries of
the full log. -/
theorem foldl_recordExchange (qas : List (String × String)) :
    ∀ h : List (String × String), (∀ p ∈ qas, p.2 ≠ "") →
      h.length ≤ MAX_CONVERSATION_HISTORY →
      qas.foldl recordExchange h =
        (h ++ qas).drop ((h ++ qas).length - MAX_CONVERSATION_HISTORY) := by
  induction qas with
  | nil =>
    intro h _ hle
    rw [List.foldl_nil, List.append_nil, Nat.sub_eq_zero_of_le hle,
      List.drop_zero]
  | cons x rest ih =>
    intro h hne hle
    rw [List.foldl_cons, recordExchange_eq h x (hne x (List.mem_cons_self x rest))]
    have hlen' : ((h ++ [x]).drop
        ((h ++ [x]).length - MAX_CONVERSATION_HISTORY)).length ≤
        MAX_CONVERSATION_HISTORY := by
      simp only [List.length_drop]; omega
    rw [ih _ (fun p hp => hne p (List.mem_cons_of_mem x hp)) hlen']
    have key : (h ++ [x]).drop ((h ++ [x]).length - MAX_CONVERSATION_HISTORY)
        ++ rest =
        ((h ++ [x]) ++ rest).drop ((h ++ [x]).length - MAX_CONVERSATION_HISTORY) := by
      conv_rhs => rw [List.drop_append_eq_append_drop]
      rw [Nat.sub_eq_zero_of_le (Nat.sub_le _ _), List.drop_zero]
    have harr : (h ++ [x]) ++ rest = h ++ x :: rest := by
      rw [List.append_assoc, List.singleton_append]
    rw [key, harr, List.drop_drop]
    congr 1
    simp only [List.length_drop, List.length_append, List.length_cons,
      List.length_nil, MAX_CONVERSATION_HISTORY] at hle ⊢
    omega

/-- C6: after folding more than `MAX_CONVERSATION_HISTORY` (= 10)
question/answer exchanges with non-empty answers into an empty history, the
history is exactly the 10 most recent pairs in submission order (the suffix
of the submission log), and its size is exactly 10. -/
theorem C6_history_window (qas : List (String × String))
    (hne : ∀ p ∈ qas, p.2 ≠ "")
    (hN : MAX_CONVERSATION_HISTORY < qas.length) :
    qas.foldl recordExchange [] =
      qas.drop (qas.length - MAX_CONVERSATION_HISTORY) ∧
      (qas.foldl recordExchange []).length = MAX_CONVERSATION_HISTORY := by
  have h := foldl_recordExchange qas [] hne (by simp [MAX_CONVERSATION_HISTORY])
  rw [List.nil_append] at h
  refine ⟨h, ?_⟩
  rw [h, List.length_drop]
  omega

/-- Witness for C6: 12 concrete exchanges leave exactly the last 10. -/
theorem C6_history_window_witness :
    (∀ p ∈ (List.range 12).map (fun i => (toString i, toString (i + 1))),
        p.2 ≠ "") ∧
      MAX_CONVERSATION_HISTORY <
        ((List.range 12).map (fun i => (toString i, toString (i + 1)))).length ∧
      ((List.range 12).map (fun i => (toString i, toString (i + 1)))).foldl
          recordExchange [] =
        ((List.range 12).map (fun i => (toString i, toString (i + 1)))).drop
          (((List.range 12).map (fun i => (toString i, toString (i + 1)))).length -
            MAX_CONVERSATION_HISTORY) := by
  refine ⟨by decide, by decide, ?_⟩
  exact (C6_history_window _ (by decide) (by decide)).1

/-- C7: the query worker emits exactly one event per processed query — the
matching success event carrying the response when the remote chat boundary
returns non-empty text, and otherwise an ERROR event whose message is
`"Failed to get AI response: "` followed by the boundary's last error
string. -/
theorem C7_one_event_per_query (qt : QueryType) (question : String)
    (hist : List (String × String)) (transcript systemPrompt response lastError : String) :
    (processQuery qt question hist transcript systemPrompt response lastError).events.length = 1 ∧
      (response ≠ "" →
        (processQuery qt question hist transcript systemPrompt response lastError).events =
          [⟨successEvent qt, response, ""⟩]) ∧
      (response = "" →
        (processQuery qt question hist transcript systemPrompt response lastError).events =
          [⟨EventType.EVENT_ERROR, "", "Failed to get AI response: " ++ lastError⟩]) := by
  by_cases hr : response = "" <;> simp [processQuery, hr]

/-- Witness for C7: a concrete successful question and a concrete failed
summary each yield exactly the one matching event. -/
theorem C7_one_event_per_query_witness :
    (processQuery QueryType.QUESTION "q" [] "t" "sys" "ans" "").events =
        [⟨EventType.AI_RESPONSE, "ans", ""⟩] ∧
      (processQuery QueryType.SUMMARY "" [] "t" "sys" "" "boom").events =
        [⟨EventType.EVENT_ERROR, "", "Failed to get AI response: boom"⟩] := by
  constructor
  · exact (C7_one_event_per_query QueryType.QUESTION "q" [] "t" "sys" "ans" "").2.1
      (by decide)
  · exact (C7_one_event_per_query QueryType.SUMMARY "" [] "t" "sys" "" "boom").2.2 rfl

/-- C9: processing a SUMMARY or ACTION_ITEMS query neither reads nor writes
the conversation history: the history after the query equals the history
before it, and the message list sent to the remote chat boundary is the
same whatever the history contains (it is built without history entries). -/
theorem C9_summary_actionitems_frame (qt : QueryType)
    (hqt : qt = QueryType.SUMMARY ∨ qt = QueryType.ACTION_ITEMS)
    (question : String) (hist hist' : List (String × String))
    (transcript systemPrompt response lastError : String) :
    (processQuery qt question hist transcript systemPrompt response lastError).history = hist ∧
      (processQuery qt question hist' transcript systemPrompt response lastError).messages =
        (processQuery qt question hist transcript systemPrompt response lastError).messages := by
  rcases hqt with h | h <;> subst h <;> exact ⟨rfl, rfl⟩

/-- Witness for C9: a concrete SUMMARY query leaves a concrete history
untouched and builds the same messages under a different history. -/
theorem C9_summary_actionitems_frame_witness :
    (processQuery QueryType.SUMMARY "" [("a", "b")] "t" "sys" "s" "").history =
        [("a", "b")] ∧
      (processQuery QueryType.SUMMARY "" [] "t" "sys" "s" "").messages =
        (processQuery QueryType.SUMMARY "" [("a", "b")] "t" "sys" "s" "").messages :=
  C9_summary_actionitems_frame QueryType.SUMMARY (Or.inl rfl) "" [("a", "b")] []
    "t" "sys" "s" ""

/-- C8 as stated is false: when the platform stream fails to start,
`AudioCapture::Start` has already written `handler_` and `shouldStop_`,
so the object's state does differ from its value before the call.  Concrete
input: an initialized, non-capturing object with a pending stop flag and a
null handler, started with a non-null handler while the platform start
fails. -/
theorem C8_counterexample :
    (AudioCaptureStart ⟨true, false, true, none, false⟩ (some 1) false).1 = false ∧
      (AudioCaptureStart ⟨true, false, true, none, false⟩ (some 1) false).2 ≠
        ⟨true, false, true, none, false⟩ := by
  decide

/-- C8 amended: if the platform audio stream fails to start, `Start` returns
failure, spawns no capture thread, and leaves `initialized_`, `capturing_`
and `threadRunning` unchanged (the object does not become capturing);
however `handler_` holds the new handler and `shouldStop_` is cleared,
having been written before the failed platform start. -/
theorem C8_start_failure_frame (s : AudioCaptureState) (handler : Option Nat)
    (hinit : s.initialized = true) (hcap : s.capturing = false) :
    (AudioCaptureStart s handler false).1 = false ∧
      (AudioCaptureStart s handler false).2.threadRunning = s.threadRunning ∧
      (AudioCaptureStart s handler false).2.capturing = false ∧
      (AudioCaptureStart s handler false).2.initialized = s.initialized ∧
      (AudioCaptureStart s handler false).2.handler = handler ∧
      (AudioCaptureStart s handler false).2.shouldStop = false := by
  simp [AudioCaptureStart, hinit, hcap]

/-- Witness for C8 amended: the concrete failed start of the counterexample
state keeps `threadRunning` and `capturing` false and stores the handler. -/
theorem C8_start_failure_frame_witness :
    (true : Bool) = true ∧ (false : Bool) = false ∧
      (AudioCaptureStart ⟨true, false, true, none, false⟩ (some 1) false).1 = false ∧
      (AudioCaptureStart ⟨true, false, true, none, false⟩ (some 1) false).2.threadRunning = false ∧
      (AudioCaptureStart ⟨true, false, true, none, false⟩ (some 1) false).2.capturing = false := by
  have h := C8_start_failure_frame ⟨true, false, true, none, false⟩ (some 1) rfl rfl
  exact ⟨rfl, rfl, h.1, h.2.1, h.2.2.1⟩

end InvisibleApp
